import Mathlib

/-!
Verification of the mmcloud S3 transfer utilities.

This file gives a shallow embedding of the two transfer tools of the
repository and proves the specified properties about them:

* `utils/s3_ftp_transfer/ftp_transfer.py` — FTP/SFTP ↔ S3 transfers
  (chunk planning, size-equality skip, multipart upload with
  abort-on-failure).
* `utils/s3_operations/version-aware-cleanup.py` — S3 copy/move/delete
  driver (prefix normalization, destination-key placement, dry run,
  confirmation gate, multipart copy).

Strings are modelled as `List Char`; S3 and FTP servers are modelled as
environments (records of oracles describing listing results and the
success or failure of each remote call), and each embedded operation
returns, besides its result, the list of mutating remote calls it
performed, in order.  Read-only calls (listings, head/stat requests) are
not recorded in the trace: the properties under proof quantify over
mutating calls only, and the environment already fixes the reads'
results.
-/

/-- Strings of the Python sources, modelled as lists of characters. -/
abbrev Str := List Char

/-! ## String helpers (version-aware-cleanup.py, lines 29-49) -/

/-- `prefix.strip('/')` composed with dropping the leading run:
Python `str.strip('/')` removes every leading and trailing `'/'`. -/
def pyStripSlash (l : Str) : Str :=
  (((l.dropWhile (fun c => c = '/')).reverse.dropWhile (fun c => c = '/'))).reverse

/-- One step of `re.sub(r'/+', '/', s)`: the Bool records whether the
previously emitted character was `'/'` (i.e. we are inside a run). -/
def collapseAux : Bool → Str → Str
  | _, [] => []
  | prevSlash, c :: rest =>
    if c = '/' then
      if prevSlash then collapseAux true rest
      else '/' :: collapseAux true rest
    else c :: collapseAux false rest

/-- `re.sub(r'/+', '/', s)`: every maximal run of slashes becomes one slash. -/
def collapseSlashes (l : Str) : Str := collapseAux false l

/-- `normalize_prefix` of version-aware-cleanup.py (lines 30-33):
`re.sub(r'/+', '/', prefix.strip('/')) + '/'`. -/
def normalizePrefix (p : Str) : Str := collapseSlashes (pyStripSlash p) ++ ['/']

/-- `s.rstrip('/')`. -/
def pyRstripSlash (l : Str) : Str := (l.reverse.dropWhile (fun c => c = '/')).reverse

/-- Python `s.replace('//', '/')`: single left-to-right pass over
non-overlapping occurrences. -/
def replaceDoubleSlash : Str → Str
  | '/' :: '/' :: rest => '/' :: replaceDoubleSlash rest
  | c :: rest => c :: replaceDoubleSlash rest
  | [] => []

/-- `os.path.basename`: the suffix after the last `'/'`. -/
def posixBasename (l : Str) : Str := (l.reverse.takeWhile (fun c => c ≠ '/')).reverse

/-- `get_basename` of version-aware-cleanup.py (lines 35-37):
`os.path.basename(path.rstrip('/').replace('//', '/'))`. -/
def get_basename (p : Str) : Str := posixBasename (replaceDoubleSlash (pyRstripSlash p))

/-- `os.path.dirname` for POSIX paths: the part up to the last `'/'`,
with trailing slashes stripped unless the head is all slashes. -/
def posixDirname (p : Str) : Str :=
  let head := (p.reverse.dropWhile (fun c => c ≠ '/')).reverse
  if head ≠ [] ∧ ¬ head.all (fun c => c = '/') then pyRstripSlash head else head

/-- Does the string contain two adjacent slashes? -/
def hasDoubleSlash : Str → Bool
  | [] => false
  | [_] => false
  | c :: d :: rest => (c = '/' && d = '/') || hasDoubleSlash (d :: rest)

/-! ## Chunk planner (ftp_transfer.py, lines 28-29 and 170-182) -/

/-- 100 MiB default chunk size of ftp_transfer.py. -/
def DEFAULT_CHUNK_SIZE : Nat := 104857600

/-- AWS minimum multipart part size, 5 MiB. -/
def MIN_CHUNK_SIZE : Nat := 5 * 1024 * 1024

/-- AWS maximum number of multipart parts. -/
def MAX_PARTS : Nat := 10000

/-- `math.ceil(a / b)` for natural `a` and positive natural `b`
(the Python source computes this with float division). -/
def ceilDiv (a b : Nat) : Nat := (a + b - 1) / b

/-- Python truthiness of the optional user chunk size (`None` and `0`
are falsy). -/
def natTruthy : Option Nat → Bool
  | none => false
  | some n => n ≠ 0

/-- `_calculate_optimal_chunk_size` of ftp_transfer.py (lines 170-182).
A truthy user chunk size of at least 5 MiB is returned verbatim;
otherwise the result is `max(max(ceil(size / 10000), 100 MiB), 5 MiB)`. -/
def calculate_optimal_chunk_size (fileSize : Nat) (userChunkSize : Option Nat) : Nat :=
  if natTruthy userChunkSize && decide (MIN_CHUNK_SIZE ≤ userChunkSize.getD 0) then
    userChunkSize.getD 0
  else
    max (max (ceilDiv fileSize MAX_PARTS) DEFAULT_CHUNK_SIZE) MIN_CHUNK_SIZE

/-! ## Part ranges -/

/-- Byte ranges of `multipart_copy_with_metadata` (version-aware-cleanup.py,
lines 341-358): `for i, offset in enumerate(range(0, size, part_size), 1)`
with `last_byte = min(offset + part_size - 1, size - 1)`.  Each entry is
`(part_number, first_byte, last_byte)`. -/
def copyPartRanges (size partSize : Nat) : List (Nat × Nat × Nat) :=
  (List.range (ceilDiv size partSize)).map
    (fun i => (i + 1, i * partSize, min (i * partSize + partSize - 1) (size - 1)))

/-- Byte ranges of `_download_s3_to_sftp` (ftp_transfer.py, lines 450-467):
`chunk_count = ceil(size / chunk_size)`, `start_byte = i * chunk_size`,
`end_byte = min(start_byte + chunk_size - 1, size - 1)`. -/
def downloadChunkRanges (size chunkSize : Nat) : List (Nat × Nat × Nat) :=
  (List.range (ceilDiv size chunkSize)).map
    (fun i => (i + 1, i * chunkSize, min (i * chunkSize + chunkSize - 1) (size - 1)))

/-! ## ceilDiv lemmas -/

theorem ceilDiv_le_iff (a b c : Nat) (hb : 0 < b) : ceilDiv a b ≤ c ↔ a ≤ b * c := by
  unfold ceilDiv
  rw [Nat.div_le_iff_le_mul_add_pred hb]
  generalize b * c = m
  omega

theorem le_mul_ceilDiv (a b : Nat) (hb : 0 < b) : a ≤ b * ceilDiv a b :=
  (ceilDiv_le_iff a b (ceilDiv a b) hb).mp (Nat.le_refl _)

theorem lt_ceilDiv_iff (a b c : Nat) (hb : 0 < b) : c < ceilDiv a b ↔ b * c < a := by
  constructor
  · intro h
    by_contra hc
    exact absurd ((ceilDiv_le_iff a b c hb).mpr (Nat.le_of_not_lt hc)) (Nat.not_le_of_lt h)
  · intro h
    by_contra hc
    exact absurd ((ceilDiv_le_iff a b c hb).mp (Nat.le_of_not_lt hc)) (Nat.not_le_of_lt h)

/-! ## Placement resolver (version-aware-cleanup.py, lines 549-574) -/

/-- `calculate_destination_key` of version-aware-cleanup.py (lines 549-574).
When the source folder and destination folder have the same (non-empty)
name the contents are always merged; otherwise, without `merge`, a
subfolder named after the source's basename is created. -/
def calculate_destination_key (sourceKey srcPfx dstPfx : Str) (merge : Bool) : Str :=
  let nsp := normalizePrefix srcPfx
  let ndp := normalizePrefix dstPfx
  let sbn := get_basename srcPfx
  let dbn := get_basename dstPfx
  if nsp.isPrefixOf sourceKey then
    let rel := sourceKey.drop nsp.length
    if merge = true ∨ (sbn = dbn ∧ sbn ≠ [] ∧ dbn ≠ []) then ndp ++ rel
    else ndp ++ sbn ++ '/' :: rel
  else
    ndp ++ posixBasename sourceKey

/-! ## String lemmas -/

/-- Does the string start with a slash? -/
def startsSlash : Str → Bool
  | '/' :: _ => true
  | _ => false

/-- Does the string end with a slash? -/
def endsSlash (l : Str) : Prop := l.getLast? = some '/'

instance (l : Str) : Decidable (endsSlash l) := by unfold endsSlash; infer_instance

theorem startsSlash_eq_false {c : Char} {r : Str} (h : c ≠ '/') :
    startsSlash (c :: r) = false := by
  unfold startsSlash
  split
  · rename_i heq
    cases heq
    exact absurd rfl h
  · rfl

theorem hasDoubleSlash_cons_of_ne {c : Char} {r : Str} (hc : c ≠ '/') :
    hasDoubleSlash (c :: r) = hasDoubleSlash r := by
  cases r with
  | nil => rfl
  | cons d r' =>
    show ((c = '/' && d = '/') || hasDoubleSlash (d :: r')) = _
    simp [hc]

theorem hasDoubleSlash_cons_slash {r : Str} :
    hasDoubleSlash ('/' :: r) = (startsSlash r || hasDoubleSlash r) := by
  cases r with
  | nil => rfl
  | cons d r' =>
    show ((('/' : Char) = '/' && d = '/') || hasDoubleSlash (d :: r')) = _
    by_cases hd : d = '/'
    · subst hd; simp [startsSlash]
    · simp [hd, startsSlash_eq_false hd]

theorem collapseAux_slash_true (r : Str) : collapseAux true ('/' :: r) = collapseAux true r := by
  simp [collapseAux]

theorem collapseAux_slash_false (r : Str) :
    collapseAux false ('/' :: r) = '/' :: collapseAux true r := by
  simp [collapseAux]

theorem collapseAux_cons_of_ne (b : Bool) {c : Char} (r : Str) (hc : c ≠ '/') :
    collapseAux b (c :: r) = c :: collapseAux false r := by
  simp [collapseAux, hc]

theorem collapseAux_true_startsSlash (l : Str) : startsSlash (collapseAux true l) = false := by
  induction l with
  | nil => rfl
  | cons c rest ih =>
    by_cases hc : c = '/'
    · subst hc; rw [collapseAux_slash_true]; exact ih
    · rw [collapseAux_cons_of_ne _ _ hc]; exact startsSlash_eq_false hc

theorem collapseAux_noDS (l : Str) : ∀ b, hasDoubleSlash (collapseAux b l) = false := by
  induction l with
  | nil => intro b; rfl
  | cons c rest ih =>
    intro b
    by_cases hc : c = '/'
    · subst hc
      cases b with
      | true => rw [collapseAux_slash_true]; exact ih true
      | false =>
        rw [collapseAux_slash_false, hasDoubleSlash_cons_slash,
          collapseAux_true_startsSlash, ih true]
        rfl
    · rw [collapseAux_cons_of_ne _ _ hc, hasDoubleSlash_cons_of_ne hc]
      exact ih false

theorem collapseAux_id (l : Str) :
    ∀ b, hasDoubleSlash l = false → (b = true → startsSlash l = false) →
      collapseAux b l = l := by
  induction l with
  | nil => intro b _ _; rfl
  | cons c rest ih =>
    intro b hds hb
    by_cases hc : c = '/'
    · subst hc
      cases b with
      | true => exact absurd (hb rfl) (by simp [startsSlash])
      | false =>
        rw [hasDoubleSlash_cons_slash] at hds
        simp only [Bool.or_eq_false_iff] at hds
        rw [collapseAux_slash_false, ih true hds.2 (fun _ => hds.1)]
    · rw [hasDoubleSlash_cons_of_ne hc] at hds
      rw [collapseAux_cons_of_ne _ _ hc, ih false hds (by simp)]

theorem dropWhile_slash_startsSlash (l : Str) :
    startsSlash (l.dropWhile (fun c => c = '/')) = false := by
  induction l with
  | nil => rfl
  | cons c rest ih =>
    by_cases hc : c = '/'
    · simpa [List.dropWhile_cons, hc] using ih
    · simp [List.dropWhile_cons, hc, startsSlash_eq_false hc]

theorem not_endsSlash_of_dropWhile_reverse (l : Str) :
    ¬ endsSlash ((l.dropWhile (fun c => c = '/')).reverse) := by
  unfold endsSlash
  rw [← List.head?_reverse, List.reverse_reverse]
  intro h
  have hs := dropWhile_slash_startsSlash l
  cases hd : l.dropWhile (fun c => c = '/') with
  | nil => rw [hd] at h; simp at h
  | cons c r =>
    rw [hd] at h hs
    simp only [List.head?_cons, Option.some.injEq] at h
    subst h
    simp [startsSlash] at hs

theorem startsSlash_of_prefix {t m : Str} (h : t <+: m) (hm : startsSlash m = false) :
    startsSlash t = false := by
  obtain ⟨u, hu⟩ := h
  cases t with
  | nil => rfl
  | cons c t' =>
    subst hu
    by_cases hc : c = '/'
    · subst hc
      simp [startsSlash] at hm
    · exact startsSlash_eq_false hc

theorem pyStripSlash_startsSlash (l : Str) : startsSlash (pyStripSlash l) = false := by
  unfold pyStripSlash
  set m := l.dropWhile (fun c => c = '/') with hm
  have hsuf : (m.reverse.dropWhile (fun c => c = '/')) <:+ m.reverse :=
    List.dropWhile_suffix _
  obtain ⟨u, hu⟩ := hsuf
  have hpre : (m.reverse.dropWhile (fun c => c = '/')).reverse <+: m := by
    refine ⟨u.reverse, ?_⟩
    have := congrArg List.reverse hu
    simpa [List.reverse_append] using this
  exact startsSlash_of_prefix hpre (dropWhile_slash_startsSlash l)

theorem pyStripSlash_not_endsSlash (l : Str) : ¬ endsSlash (pyStripSlash l) := by
  unfold pyStripSlash
  exact not_endsSlash_of_dropWhile_reverse _

theorem collapseAux_false_ne_nil (c : Char) (r : Str) : collapseAux false (c :: r) ≠ [] := by
  by_cases hc : c = '/'
  · subst hc; rw [collapseAux_slash_false]; simp
  · rw [collapseAux_cons_of_ne _ _ hc]; simp

theorem collapseAux_true_eq_nil {r : Str} (h : collapseAux true r = []) :
    ∀ c ∈ r, c = '/' := by
  induction r with
  | nil => intro c hc; cases hc
  | cons d r' ih =>
    intro c hc
    by_cases hd : d = '/'
    · subst hd
      rw [collapseAux_slash_true] at h
      rcases List.mem_cons.mp hc with heq | hmem
      · exact heq
      · exact ih h _ hmem
    · rw [collapseAux_cons_of_ne _ _ hd] at h
      cases h

theorem endsSlash_of_all_slash {r : Str} (hne : r ≠ []) (h : ∀ c ∈ r, c = '/') :
    endsSlash r := by
  unfold endsSlash
  rw [List.getLast?_eq_getLast _ hne]
  exact congrArg some (h _ (List.getLast_mem hne))

theorem collapseAux_not_endsSlash (l : Str) :
    ∀ b, ¬ endsSlash l → ¬ endsSlash (collapseAux b l) := by
  induction l with
  | nil => intro b _ h; cases b <;> simp [collapseAux, endsSlash] at h
  | cons c rest ih =>
    intro b hl
    cases rest with
    | nil =>
      have hc : c ≠ '/' := by
        intro hcc; subst hcc; exact hl rfl
      rw [collapseAux_cons_of_ne _ _ hc]
      show ¬ endsSlash [c]
      intro h
      unfold endsSlash at h
      simp only [List.getLast?_singleton, Option.some.injEq] at h
      exact hc h
    | cons d r' =>
      have hrest : ¬ endsSlash (d :: r') := by
        intro h
        exact hl (by unfold endsSlash at *; rwa [List.getLast?_cons_cons])
      by_cases hc : c = '/'
      · subst hc
        cases b with
        | true =>
          rw [collapseAux_slash_true]
          exact ih true hrest
        | false =>
          rw [collapseAux_slash_false]
          cases hX : collapseAux true (d :: r') with
          | nil =>
            exact absurd
              (endsSlash_of_all_slash (by simp) (collapseAux_true_eq_nil hX)) hrest
          | cons x xs =>
            intro h
            unfold endsSlash at h
            rw [List.getLast?_cons_cons] at h
            rw [← hX] at h
            exact ih true hrest h
      · rw [collapseAux_cons_of_ne _ _ hc]
        cases hX : collapseAux false (d :: r') with
        | nil => exact absurd hX (collapseAux_false_ne_nil d r')
        | cons x xs =>
          intro h
          unfold endsSlash at h
          rw [List.getLast?_cons_cons] at h
          rw [← hX] at h
          exact ih false hrest h

theorem hasDoubleSlash_append_slash {t : Str} (hds : hasDoubleSlash t = false)
    (hes : ¬ endsSlash t) : hasDoubleSlash (t ++ ['/']) = false := by
  induction t with
  | nil => rfl
  | cons c rest ih =>
    cases rest with
    | nil =>
      have hc : c ≠ '/' := fun hcc => hes (by subst hcc; rfl)
      show ((c = '/' && ('/' : Char) = '/') || hasDoubleSlash ['/']) = false
      simp [hc, hasDoubleSlash]
    | cons d r' =>
      have hrest : ¬ endsSlash (d :: r') := by
        intro h
        exact hes (by unfold endsSlash at *; rwa [List.getLast?_cons_cons])
      by_cases hc : c = '/'
      · subst hc
        rw [hasDoubleSlash_cons_slash] at hds
        simp only [Bool.or_eq_false_iff] at hds
        show hasDoubleSlash ('/' :: (d :: r' ++ ['/'])) = false
        rw [hasDoubleSlash_cons_slash]
        have h1 : startsSlash (d :: r' ++ ['/']) = false := by
          have hd : d ≠ '/' := by
            intro hdd; subst hdd; simp [startsSlash] at hds
          exact startsSlash_eq_false hd
        rw [h1, ih hds.2 hrest]
        rfl
      · rw [hasDoubleSlash_cons_of_ne hc] at hds
        show hasDoubleSlash (c :: (d :: r' ++ ['/'])) = false
        rw [hasDoubleSlash_cons_of_ne hc]
        exact ih hds hrest

theorem dropWhile_eq_self_of_startsSlash_false {l : Str} (h : startsSlash l = false) :
    l.dropWhile (fun c => c = '/') = l := by
  cases l with
  | nil => rfl
  | cons c r =>
    have hc : c ≠ '/' := by
      intro hcc; subst hcc; simp [startsSlash] at h
    simp [List.dropWhile_cons, hc]

theorem startsSlash_reverse_of_not_endsSlash {l : Str} (h : ¬ endsSlash l) :
    startsSlash l.reverse = false := by
  cases hr : l.reverse with
  | nil => rfl
  | cons c r =>
    have : l.getLast? = some c := by
      rw [← List.head?_reverse, hr]; rfl
    have hc : c ≠ '/' := by
      intro hcc; subst hcc; exact h this
    exact startsSlash_eq_false hc

theorem pyStripSlash_append_slash {t : Str} (hs : startsSlash t = false)
    (he : ¬ endsSlash t) : pyStripSlash (t ++ ['/']) = t := by
  unfold pyStripSlash
  cases t with
  | nil => rfl
  | cons c t' =>
    have hc : c ≠ '/' := by
      intro hcc; subst hcc; simp [startsSlash] at hs
    have h1 : (c :: t' ++ ['/']).dropWhile (fun x => x = '/') = c :: t' ++ ['/'] :=
      dropWhile_eq_self_of_startsSlash_false (startsSlash_eq_false hc)
    rw [h1]
    have h2 : (c :: t' ++ ['/']).reverse = '/' :: (c :: t').reverse := by
      simp
    rw [h2]
    have h3 : List.dropWhile (fun x => x = '/') ('/' :: (c :: t').reverse)
        = List.dropWhile (fun x => x = '/') ((c :: t').reverse) := by
      simp [List.dropWhile_cons]
    rw [h3, dropWhile_eq_self_of_startsSlash_false
      (startsSlash_reverse_of_not_endsSlash he), List.reverse_reverse]

theorem collapseSlashes_startsSlash {l : Str} (h : startsSlash l = false) :
    startsSlash (collapseSlashes l) = false := by
  cases l with
  | nil => rfl
  | cons c r =>
    have hc : c ≠ '/' := by
      intro hcc; subst hcc; simp [startsSlash] at h
    unfold collapseSlashes
    rw [collapseAux_cons_of_ne _ _ hc]
    exact startsSlash_eq_false hc

example : normalizePrefix "a//b/".toList = "a/b/".toList := by decide
example : normalizePrefix "".toList = "/".toList := by decide
example : get_basename "a/b".toList = "b".toList := by decide
example : get_basename "x//y/".toList = "y".toList := by decide

/-- C10: `normalize_prefix` always yields a string ending in exactly one
slash, without consecutive slashes, and it is idempotent. -/
theorem claim_C10_normalizePrefix (s : Str) :
    (normalizePrefix s).getLast? = some '/' ∧
    hasDoubleSlash (normalizePrefix s) = false ∧
    normalizePrefix (normalizePrefix s) = normalizePrefix s := by
  have hds : hasDoubleSlash (collapseSlashes (pyStripSlash s)) = false :=
    collapseAux_noDS (pyStripSlash s) false
  have hss : startsSlash (collapseSlashes (pyStripSlash s)) = false :=
    collapseSlashes_startsSlash (pyStripSlash_startsSlash s)
  have hes : ¬ endsSlash (collapseSlashes (pyStripSlash s)) :=
    collapseAux_not_endsSlash (pyStripSlash s) false (pyStripSlash_not_endsSlash s)
  refine ⟨?_, ?_, ?_⟩
  · exact List.getLast?_concat _
  · exact hasDoubleSlash_append_slash hds hes
  · show normalizePrefix (collapseSlashes (pyStripSlash s) ++ ['/']) = _
    unfold normalizePrefix
    rw [pyStripSlash_append_slash hss hes]
    show collapseAux false _ ++ _ = _
    rw [collapseAux_id _ false hds (by simp)]

/-! ## C4 / C5 — placement resolver -/

/-- C4: for a source key under the normalized source prefix, the resolver
returns `destPrefix / basename(sourcePrefix) / relativePath` under
preserve-structure (merge not requested, leaf names differing) and
`destPrefix / relativePath` under merge. -/
theorem claim_C4_placement (sk sp dp : Str)
    (hpre : (normalizePrefix sp).isPrefixOf sk = true)
    (hdiff : get_basename sp ≠ get_basename dp) :
    calculate_destination_key sk sp dp false
      = normalizePrefix dp ++ get_basename sp ++ '/' :: sk.drop (normalizePrefix sp).length
    ∧ calculate_destination_key sk sp dp true
      = normalizePrefix dp ++ sk.drop (normalizePrefix sp).length := by
  unfold calculate_destination_key
  constructor
  · simp [hpre, hdiff]
  · simp [hpre]

/-- C4 witness: source prefix `a/b`, dest prefix `x/y`, source key
`a/b/c/d.txt` yield `x/y/b/c/d.txt` (preserve) and `x/y/c/d.txt` (merge). -/
theorem claim_C4_placement_witness :
    calculate_destination_key "a/b/c/d.txt".toList "a/b".toList "x/y".toList false
      = "x/y/b/c/d.txt".toList
    ∧ calculate_destination_key "a/b/c/d.txt".toList "a/b".toList "x/y".toList true
      = "x/y/c/d.txt".toList := by
  have h := claim_C4_placement "a/b/c/d.txt".toList "a/b".toList "x/y".toList
    (by decide) (by decide)
  exact ⟨h.1.trans (by decide), h.2.trans (by decide)⟩

/-- C5: when source and destination leaf names are equal and non-empty,
the resolver yields the merge placement even when merge was not
requested. -/
theorem claim_C5_forced_merge (sk sp dp : Str)
    (heq : get_basename sp = get_basename dp) (hne : get_basename sp ≠ []) :
    calculate_destination_key sk sp dp false = calculate_destination_key sk sp dp true := by
  have hne2 : get_basename dp ≠ [] := heq ▸ hne
  unfold calculate_destination_key
  by_cases hp : (normalizePrefix sp).isPrefixOf sk
  · simp [hp, heq, hne, hne2]
  · simp [hp]

/-- C5 witness: moving `data` into `backup/data` (equal leaf names)
produces the merge key `backup/data/f.txt` even without merge. -/
theorem claim_C5_forced_merge_witness :
    calculate_destination_key "data/f.txt".toList "data".toList "backup/data".toList false
      = calculate_destination_key "data/f.txt".toList "data".toList "backup/data".toList true
    ∧ calculate_destination_key "data/f.txt".toList "data".toList "backup/data".toList false
      = "backup/data/f.txt".toList :=
  ⟨claim_C5_forced_merge "data/f.txt".toList "data".toList "backup/data".toList
      (by decide) (by decide),
   by decide⟩

/-! ## C1 — chunk planner -/

/-- C1 (amended): the planned chunk size is always at least 5 MiB; a
user chunk size of at least 5 MiB is used verbatim; and when no usable
user chunk size is given (absent, zero, or below 5 MiB) the implied part
count `ceil(size / plan)` is at most 10000.  (A verbatim user chunk size
can exceed the 10000-part bound; see the counterexample.) -/
theorem claim_C1_chunk_plan (s : Nat) (c : Option Nat) :
    MIN_CHUNK_SIZE ≤ calculate_optimal_chunk_size s c
    ∧ (∀ u, c = some u → MIN_CHUNK_SIZE ≤ u → calculate_optimal_chunk_size s c = u)
    ∧ ceilDiv s (calculate_optimal_chunk_size s none) ≤ MAX_PARTS
    ∧ (∀ u, c = some u → u < MIN_CHUNK_SIZE →
        calculate_optimal_chunk_size s c = calculate_optimal_chunk_size s none) := by
  refine ⟨?_, ?_, ?_, ?_⟩
  · unfold calculate_optimal_chunk_size
    split
    · rename_i h
      exact of_decide_eq_true (Bool.and_elim_right h)
    · exact le_max_right _ _
  · intro u hc hu
    subst hc
    have h0 : u ≠ 0 := by
      intro h; rw [h] at hu; exact absurd hu (by decide)
    unfold calculate_optimal_chunk_size
    rw [if_pos]
    · rfl
    · simp [natTruthy, h0, hu]
  · have hplanpos : 0 < calculate_optimal_chunk_size s none := by
      have : MIN_CHUNK_SIZE ≤ calculate_optimal_chunk_size s none := le_max_right _ _
      have h5 : 0 < MIN_CHUNK_SIZE := by decide
      omega
    rw [ceilDiv_le_iff _ _ _ hplanpos]
    have h1 : s ≤ MAX_PARTS * ceilDiv s MAX_PARTS := le_mul_ceilDiv s MAX_PARTS (by decide)
    have h2 : ceilDiv s MAX_PARTS ≤ calculate_optimal_chunk_size s none :=
      le_trans (le_max_left _ _) (le_max_left _ _)
    calc s ≤ MAX_PARTS * ceilDiv s MAX_PARTS := h1
    _ ≤ MAX_PARTS * calculate_optimal_chunk_size s none :=
        Nat.mul_le_mul_left _ h2
    _ = calculate_optimal_chunk_size s none * MAX_PARTS := Nat.mul_comm _ _
  · intro u hc hu
    subst hc
    unfold calculate_optimal_chunk_size
    rw [if_neg, if_neg]
    · simp [natTruthy]
    · simp only [Bool.and_eq_true, decide_eq_true_eq]
      intro h
      exact absurd h.2 (Nat.not_le_of_lt (by simpa using hu))

/-- C1 witness: a verbatim 5 MiB user chunk size on a 10001-part object. -/
theorem claim_C1_chunk_plan_witness :
    MIN_CHUNK_SIZE ≤ 5242880
    ∧ calculate_optimal_chunk_size 52434042880 (some 5242880) = 5242880 :=
  ⟨by decide,
   (claim_C1_chunk_plan 52434042880 (some 5242880)).2.1 5242880 rfl (by decide)⟩

/-- C1 counterexample: with object size `5 MiB * 10001` and user chunk
size exactly 5 MiB the chunk size is used verbatim and the implied part
count is 10001 > 10000, refuting the claim that the part-count bound
holds whenever the user chunk size is ≥ 5 MiB. -/
theorem claim_C1_counterexample :
    calculate_optimal_chunk_size 52434042880 (some 5242880) = 5242880
    ∧ ¬ ceilDiv 52434042880 (calculate_optimal_chunk_size 52434042880 (some 5242880))
        ≤ MAX_PARTS := by
  constructor
  · decide
  · decide

/-! ## C6 — part ranges partition the object -/

theorem downloadChunkRanges_eq_copyPartRanges (size chunk : Nat) :
    downloadChunkRanges size chunk = copyPartRanges size chunk := rfl

theorem copyPartRanges_length (size chunk : Nat) :
    (copyPartRanges size chunk).length = ceilDiv size chunk := by
  simp [copyPartRanges]

theorem copyPartRanges_getElem (size chunk i : Nat) (h : i < ceilDiv size chunk) :
    (copyPartRanges size chunk)[i]? =
      some (i + 1, i * chunk, min (i * chunk + chunk - 1) (size - 1)) := by
  unfold copyPartRanges
  rw [List.getElem?_map, List.getElem?_eq_getElem (by simpa using h)]
  simp

theorem copyPartRanges_getElem_lt {size chunk i : Nat} {r : Nat × Nat × Nat}
    (h : (copyPartRanges size chunk)[i]? = some r) : i < ceilDiv size chunk := by
  by_contra hge
  rw [List.getElem?_eq_none (by simpa [copyPartRanges_length] using Nat.le_of_not_lt hge)] at h
  cases h

/-- The partition property shared by both part-range generators. -/
def partitionSpec (size : Nat) (rs : List (Nat × Nat × Nat)) : Prop :=
  rs ≠ []
  ∧ rs.map (fun r => r.1) = (List.range rs.length).map (fun i => i + 1)
  ∧ (∀ r, rs[0]? = some r → r.2.1 = 0)
  ∧ (∀ i ri rj, rs[i]? = some ri → rs[i + 1]? = some rj → rj.2.1 = ri.2.2 + 1)
  ∧ (∀ r, rs[rs.length - 1]? = some r → r.2.2 = size - 1)

theorem copyPartRanges_partition (size chunk : Nat) (hc : 0 < chunk) (hs : chunk < size) :
    partitionSpec size (copyPartRanges size chunk) := by
  have hn : 0 < ceilDiv size chunk := by
    rw [lt_ceilDiv_iff _ _ _ hc]
    omega
  refine ⟨?_, ?_, ?_, ?_, ?_⟩
  · have := copyPartRanges_length size chunk
    intro hnil
    rw [hnil] at this
    simp at this
    omega
  · rw [copyPartRanges_length]
    unfold copyPartRanges
    rw [List.map_map]
    rfl
  · intro r hr
    rw [copyPartRanges_getElem size chunk 0 hn] at hr
    cases hr
    simp
  · intro i ri rj hi hj
    have hj' : i + 1 < ceilDiv size chunk := copyPartRanges_getElem_lt hj
    have hi' : i < ceilDiv size chunk := Nat.lt_of_succ_lt hj'
    rw [copyPartRanges_getElem size chunk i hi'] at hi
    rw [copyPartRanges_getElem size chunk (i + 1) hj'] at hj
    cases hi
    cases hj
    show (i + 1) * chunk = min (i * chunk + chunk - 1) (size - 1) + 1
    have hlt : chunk * (i + 1) < size := (lt_ceilDiv_iff size chunk (i + 1) hc).mp hj'
    rw [Nat.mul_succ, Nat.mul_comm chunk i] at hlt
    rw [Nat.succ_mul]
    omega
  · intro r hr
    rw [copyPartRanges_length] at hr
    have hlast : ceilDiv size chunk - 1 < ceilDiv size chunk := by omega
    rw [copyPartRanges_getElem size chunk _ hlast] at hr
    cases hr
    show min ((ceilDiv size chunk - 1) * chunk + chunk - 1) (size - 1) = size - 1
    have hcover : size ≤ chunk * ceilDiv size chunk := le_mul_ceilDiv size chunk hc
    have heq : (ceilDiv size chunk - 1) * chunk + chunk = ceilDiv size chunk * chunk := by
      have h1 : ceilDiv size chunk - 1 + 1 = ceilDiv size chunk := by omega
      calc (ceilDiv size chunk - 1) * chunk + chunk
          = (ceilDiv size chunk - 1 + 1) * chunk := by rw [Nat.succ_mul]
      _ = ceilDiv size chunk * chunk := by rw [h1]
    rw [Nat.mul_comm chunk (ceilDiv size chunk)] at hcover
    omega

/-- C6: for objects larger than the chunk size, the byte ranges of both
the store-side multipart copy and the chunked download are numbered
contiguously from 1, start at byte 0, are adjacent without gaps or
overlaps, and end at byte `size - 1`. -/
theorem claim_C6_part_ranges (size chunk : Nat) (hc : 0 < chunk) (hs : chunk < size) :
    partitionSpec size (copyPartRanges size chunk)
    ∧ partitionSpec size (downloadChunkRanges size chunk) := by
  refine ⟨copyPartRanges_partition size chunk hc hs, ?_⟩
  rw [downloadChunkRanges_eq_copyPartRanges]
  exact copyPartRanges_partition size chunk hc hs

/-- C6 witness: a 12-byte object with 5-byte chunks splits into parts
`(1, bytes 0-4), (2, bytes 5-9), (3, bytes 10-11)`. -/
theorem claim_C6_part_ranges_witness :
    (0 < 5 ∧ 5 < 12)
    ∧ copyPartRanges 12 5 = [(1, 0, 4), (2, 5, 9), (3, 10, 11)]
    ∧ partitionSpec 12 (copyPartRanges 12 5)
    ∧ partitionSpec 12 (downloadChunkRanges 12 5) :=
  ⟨⟨by decide, by decide⟩, by decide,
   (claim_C6_part_ranges 12 5 (by decide) (by decide)).1,
   (claim_C6_part_ranges 12 5 (by decide) (by decide)).2⟩

/-! ## Mutating S3 calls

Each embedded operation returns the ordered list of mutating S3 calls it
performed (attempted calls are recorded whether or not they succeed).
Read-only calls — `list_objects_v2`, `head_object`, `head_bucket`,
`list_object_versions`, `get_object_tagging`, FTP `stat`/`listdir` — are
not recorded; their results are fixed by the environment. -/
inductive S3Action where
  | putObject (bucket key : Str)
  | copyObject (bucket key : Str)
  | deleteObject (bucket key : Str) (versionId : Option Str)
  | putTagging (bucket key : Str)
  | createMultipart (bucket key uploadId : Str)
  | uploadPart (bucket key uploadId : Str) (partNumber : Nat)
  | uploadPartCopy (bucket key uploadId : Str) (partNumber firstByte lastByte : Nat)
  | completeMultipart (bucket key uploadId : Str)
  | abortMultipart (bucket key uploadId : Str)
deriving DecidableEq

/-- Is the action an object deletion? -/
def S3Action.isDelete : S3Action → Bool
  | S3Action.deleteObject _ _ _ => true
  | _ => false

/-! ## ftp_transfer.py — environment and upload operations -/

/-- Oracle describing the FTP server, the S3 responses and the success
or failure of each remote call made by `S3FTPTransfer`.  A `false`/`none`
entry means the corresponding Python call raises an exception. -/
structure FtpEnv where
  /-- `get_file_size_ftp` result (`none`: error logged, size unknown). -/
  ftpSize : Str → Option Nat
  /-- `head_object` on the destination (`none`: the call raises). -/
  headSize : Str → Str → Option Nat
  /-- does opening the FTP read stream succeed? -/
  openOk : Bool
  /-- does reading chunk `i` (0-based) succeed? -/
  readOk : Nat → Bool
  /-- does the single-shot `upload_fileobj` succeed? -/
  singleUploadOk : Bool
  /-- UploadId returned by `create_multipart_upload`. -/
  uploadId : Str
  /-- does `create_multipart_upload` succeed? -/
  createOk : Bool
  /-- does `upload_part` for chunk `i` (0-based) succeed? -/
  uploadPartOk : Nat → Bool
  /-- does `complete_multipart_upload` succeed? -/
  completeOk : Bool
  /-- does `abort_multipart_upload` succeed? -/
  abortOk : Bool
  /-- is the negotiated protocol SFTP (else plain FTP/FTPS)? -/
  isSftp : Bool

/-- The part-upload loop of `_upload_sftp_to_s3` (ftp_transfer.py,
lines 243-265): read a chunk, then `upload_part`; the first failing call
raises and ends the loop. -/
def sftpPartsLoop (e : FtpEnv) (b k : Str) : List Nat → Bool × List S3Action
  | [] => (true, [])
  | i :: rest =>
    if e.readOk i = false then (false, [])
    else if e.uploadPartOk i = false then (false, [S3Action.uploadPart b k e.uploadId (i + 1)])
    else
      let r := sftpPartsLoop e b k rest
      (r.1, S3Action.uploadPart b k e.uploadId (i + 1) :: r.2)

/-- The exception handler of the upload functions (ftp_transfer.py,
lines 279-291): a created multipart session is aborted; whether or not
the abort call itself fails (the failure is logged and swallowed by the
inner `except`), the function returns `False`. -/
def ftpAbortReturn (e : FtpEnv) (b k : Str) (tr : List S3Action) : Bool × List S3Action :=
  if e.abortOk then (false, tr ++ [S3Action.abortMultipart b k e.uploadId])
  else (false, tr ++ [S3Action.abortMultipart b k e.uploadId])

theorem ftpAbortReturn_eq (e : FtpEnv) (b k : Str) (tr : List S3Action) :
    ftpAbortReturn e b k tr = (false, tr ++ [S3Action.abortMultipart b k e.uploadId]) := by
  unfold ftpAbortReturn
  split <;> rfl

/-- `_upload_sftp_to_s3` (ftp_transfer.py, lines 214-291).  Small files
go through a single `upload_fileobj`; larger files through
create / upload_part loop / complete.  On any exception the handler
aborts the multipart upload if one was created and returns `False`. -/
def upload_sftp_to_s3 (e : FtpEnv) (b k : Str) (fileSize chunkSize : Nat) :
    Bool × List S3Action :=
  if e.openOk = false then (false, [])
  else if fileSize ≤ chunkSize then
    if e.readOk 0 = false then (false, [])
    else if e.singleUploadOk then (true, [S3Action.putObject b k])
    else (false, [S3Action.putObject b k])
  else if e.createOk = false then (false, [S3Action.createMultipart b k e.uploadId])
  else if (sftpPartsLoop e b k (List.range (ceilDiv fileSize chunkSize))).1 then
    if e.completeOk then
      (true, S3Action.createMultipart b k e.uploadId ::
        ((sftpPartsLoop e b k (List.range (ceilDiv fileSize chunkSize))).2 ++
          [S3Action.completeMultipart b k e.uploadId]))
    else
      ftpAbortReturn e b k (S3Action.createMultipart b k e.uploadId ::
        ((sftpPartsLoop e b k (List.range (ceilDiv fileSize chunkSize))).2 ++
          [S3Action.completeMultipart b k e.uploadId]))
  else
    ftpAbortReturn e b k (S3Action.createMultipart b k e.uploadId ::
      (sftpPartsLoop e b k (List.range (ceilDiv fileSize chunkSize))).2)

/-- `_upload_ftp_to_s3` (ftp_transfer.py, lines 293-383): same life
cycle as the SFTP variant, with `retrbinary` reads instead of a stream
(no separate open step). -/
def upload_ftp_to_s3 (e : FtpEnv) (b k : Str) (fileSize chunkSize : Nat) :
    Bool × List S3Action :=
  if fileSize ≤ chunkSize then
    if e.readOk 0 = false then (false, [])
    else if e.singleUploadOk then (true, [S3Action.putObject b k])
    else (false, [S3Action.putObject b k])
  else if e.createOk = false then (false, [S3Action.createMultipart b k e.uploadId])
  else if (sftpPartsLoop e b k (List.range (ceilDiv fileSize chunkSize))).1 then
    if e.completeOk then
      (true, S3Action.createMultipart b k e.uploadId ::
        ((sftpPartsLoop e b k (List.range (ceilDiv fileSize chunkSize))).2 ++
          [S3Action.completeMultipart b k e.uploadId]))
    else
      ftpAbortReturn e b k (S3Action.createMultipart b k e.uploadId ::
        ((sftpPartsLoop e b k (List.range (ceilDiv fileSize chunkSize))).2 ++
          [S3Action.completeMultipart b k e.uploadId]))
  else
    ftpAbortReturn e b k (S3Action.createMultipart b k e.uploadId ::
      (sftpPartsLoop e b k (List.range (ceilDiv fileSize chunkSize))).2)

/-- `upload_to_s3` (ftp_transfer.py, lines 191-212): stat the FTP file,
plan the chunk size, skip the transfer when the destination already has
an object of the same size, else dispatch by protocol. -/
def upload_to_s3 (e : FtpEnv) (ftpPath b k : Str) (userChunkSize : Option Nat) :
    Bool × List S3Action :=
  match e.ftpSize ftpPath with
  | none => (false, [])
  | some fsize =>
    let chunk := calculate_optimal_chunk_size fsize userChunkSize
    let skip : Bool := match e.headSize b k with
                       | some n => n == fsize
                       | none => false
    if skip then (true, [])
    else if e.isSftp then upload_sftp_to_s3 e b k fsize chunk
    else upload_ftp_to_s3 e b k fsize chunk

/-! ## version-aware-cleanup.py — environment and operations -/

/-- 4 GiB large-object threshold (`MAX_DIRECT_COPY_SIZE`). -/
def MAX_DIRECT_COPY_SIZE : Nat := 4 * 1024 * 1024 * 1024

/-- Relevant parts of a `head_object` response. -/
structure ObjMeta where
  /-- does the response carry a `LastModified` timestamp? -/
  hasLastModified : Bool
  /-- `ContentLength` in bytes. -/
  contentLength : Nat
deriving DecidableEq

/-- One entry of `list_object_versions`. -/
structure VersionInfo where
  versionId : Str
  /-- the `IsDeleted` field consulted by `copy_file`. -/
  isDeleted : Bool
deriving DecidableEq

/-- A matched file as produced by the listing helpers. -/
structure FileInfo where
  key : Str
  size : Nat
deriving DecidableEq

/-- A sub-folder as produced by `list_folders`. -/
structure FolderInfo where
  key : Str
  name : Str
deriving DecidableEq

/-- Operations of version-aware-cleanup.py (`--operation`). -/
inductive Op where
  | copy
  | move
  | delete
  | list
deriving DecidableEq

/-- `--pattern-type`. -/
inductive PatternType where
  | glob
  | regex
  | exact
deriving DecidableEq

/-- Python truthiness of an optional string (`None` and `''` are falsy). -/
def strTruthy : Option Str → Bool
  | none => false
  | some s => !s.isEmpty

/-- Oracle describing the S3 state and the success or failure of each
call made by version-aware-cleanup.py.  The listing helpers
(`list_direct_files`, `list_recursive`, `list_folders`) only perform
read-only `list_objects_v2` calls and are abstracted as environment
queries returning the matched entries. -/
structure CleanupEnv where
  /-- `check_bucket_access` (`head_bucket`). -/
  bucketOk : Str → Bool
  /-- `list_objects_v2 MaxKeys=1` non-emptiness for a normalized prefix. -/
  prefixHasContents : Str → Str → Bool
  /-- results of `list_direct_files bucket pfx pattern pattern_type`. -/
  listDirect : Str → Str → Option Str → PatternType → List FileInfo
  /-- results of `list_recursive bucket pfx pattern pattern_type`. -/
  listRecursive : Str → Str → Option Str → PatternType → List FileInfo
  /-- results of `list_folders bucket pfx`. -/
  listFolders : Str → Str → List FolderInfo
  /-- `head_object bucket key versionId?` (`none`: error, logged). -/
  headObject : Str → Str → Option Str → Option ObjMeta
  /-- number of tags returned by `get_object_tagging` (errors give 0). -/
  tagCount : Str → Str → Nat
  /-- versions of the key returned by `get_all_versions`. -/
  versions : Str → Str → List VersionInfo
  /-- does `put_object` of a folder marker succeed? -/
  putObjectOk : Str → Str → Bool
  /-- does `copy_object` to the destination succeed? -/
  copyObjectOk : Str → Str → Bool
  /-- does `copy_object` of a non-current version succeed? -/
  copyVersionOk : Str → Str → Str → Bool
  /-- does `put_object_tagging` succeed? -/
  putTaggingOk : Str → Str → Bool
  /-- does `delete_object` (with optional version id) succeed? -/
  deleteOk : Str → Str → Option Str → Bool
  /-- UploadId returned by `create_multipart_upload`. -/
  createMupId : Str → Str → Str
  /-- does `create_multipart_upload` succeed? -/
  createMupOk : Str → Str → Bool
  /-- does `upload_part_copy` for the given part number succeed? -/
  uploadPartCopyOk : Str → Str → Nat → Bool
  /-- does `complete_multipart_upload` succeed? -/
  completeMupOk : Str → Str → Bool
  /-- does `abort_multipart_upload` succeed? -/
  abortMupOk : Str → Str → Bool
  /-- the user's answer to the confirmation prompt (`'y'`?). -/
  confirm : Bool

/-- `check_prefix_exists` (lines 67-76): a read-only listing probe on
the normalized prefix. -/
def check_prefix_exists (env : CleanupEnv) (bucket pfx : Str) : Bool :=
  env.prefixHasContents bucket (normalizePrefix pfx)

/-- `check_and_create_folder` (lines 87-105): checks bucket access,
then creates a zero-byte folder marker unless the prefix already exists;
in dry-run mode the creation is logged but not performed. -/
def check_and_create_folder (env : CleanupEnv) (bucket pfx : Str) (dryrun : Bool) :
    Bool × List S3Action :=
  if env.bucketOk bucket = false then (false, [])
  else if check_prefix_exists env bucket (normalizePrefix pfx) = false then
    if dryrun = false then
      if env.putObjectOk bucket (normalizePrefix pfx) then
        (true, [S3Action.putObject bucket (normalizePrefix pfx)])
      else (false, [S3Action.putObject bucket (normalizePrefix pfx)])
    else (true, [])
  else (true, [])

/-- `apply_tags` (lines 287-304): applies the tag set if non-empty; a
tagging failure is logged and swallowed (the caller's success status is
unaffected). -/
def apply_tags (env : CleanupEnv) (b k : Str) (tags : Nat) (dryrun : Bool) :
    Bool × List S3Action :=
  if tags ≠ 0 then
    if dryrun = false then
      if env.putTaggingOk b k then (true, [S3Action.putTagging b k])
      else (false, [S3Action.putTagging b k])
    else (true, [])
  else (true, [])

/-- The `upload_part_copy` loop of `multipart_copy_with_metadata`
(lines 341-362); the first failing call raises and ends the loop. -/
def copyPartsLoop (env : CleanupEnv) (db dk uid : Str) :
    List (Nat × Nat × Nat) → Bool × List S3Action
  | [] => (true, [])
  | (pn, firstB, lastB) :: rest =>
    if env.uploadPartCopyOk db dk pn then
      let r := copyPartsLoop env db dk uid rest
      (r.1, S3Action.uploadPartCopy db dk uid pn firstB lastB :: r.2)
    else (false, [S3Action.uploadPartCopy db dk uid pn firstB lastB])

/-- The part size of `multipart_copy_with_metadata` (lines 333-338):
`min(max(500 MiB, max(5 MiB, size // 10000)), 4 GiB - 1)`. -/
def mupPartSize (size : Nat) : Nat :=
  min (max (500 * 1024 * 1024) (max (5 * 1024 * 1024) (size / 10000)))
    (MAX_DIRECT_COPY_SIZE - 1)

/-- The inner exception handler of `multipart_copy_with_metadata`
(lines 375-378): the session is aborted; if the unguarded abort call
itself raises, the outer handler (lines 379-381) logs it — either way
the function returns `False`. -/
def mupAbortReturn (env : CleanupEnv) (db dk : Str) (tr : List S3Action) :
    Bool × List S3Action :=
  if env.abortMupOk db dk then
    (false, tr ++ [S3Action.abortMultipart db dk (env.createMupId db dk)])
  else (false, tr ++ [S3Action.abortMultipart db dk (env.createMupId db dk)])

theorem mupAbortReturn_eq (env : CleanupEnv) (db dk : Str) (tr : List S3Action) :
    mupAbortReturn env db dk tr
      = (false, tr ++ [S3Action.abortMultipart db dk (env.createMupId db dk)]) := by
  unfold mupAbortReturn
  split <;> rfl

/-- The create / part-copy / complete life cycle of
`multipart_copy_with_metadata` (lines 317-378) for a known object size:
in dry-run mode nothing is called; otherwise create a multipart upload,
copy byte-range parts, complete, then apply tags (failures swallowed);
any failure inside the part/complete block aborts the session. -/
def mupBody (env : CleanupEnv) (db dk : Str) (tags : Nat) (size : Nat) (dryrun : Bool) :
    Bool × List S3Action :=
  if dryrun then (true, [])
  else if env.createMupOk db dk = false then
    (false, [S3Action.createMultipart db dk (env.createMupId db dk)])
  else if (copyPartsLoop env db dk (env.createMupId db dk)
      (copyPartRanges size (mupPartSize size))).1 then
    if env.completeMupOk db dk then
      (true, S3Action.createMultipart db dk (env.createMupId db dk) ::
        ((copyPartsLoop env db dk (env.createMupId db dk)
            (copyPartRanges size (mupPartSize size))).2 ++
          S3Action.completeMultipart db dk (env.createMupId db dk) ::
            (apply_tags env db dk tags false).2))
    else
      mupAbortReturn env db dk
        (S3Action.createMultipart db dk (env.createMupId db dk) ::
          ((copyPartsLoop env db dk (env.createMupId db dk)
              (copyPartRanges size (mupPartSize size))).2 ++
            [S3Action.completeMultipart db dk (env.createMupId db dk)]))
  else
    mupAbortReturn env db dk
      (S3Action.createMultipart db dk (env.createMupId db dk) ::
        (copyPartsLoop env db dk (env.createMupId db dk)
          (copyPartRanges size (mupPartSize size))).2)

/-- `multipart_copy_with_metadata` (lines 306-381): head the source,
then run the multipart life cycle above on its `ContentLength`. -/
def multipart_copy_with_metadata (env : CleanupEnv) (sb sk : Str) (versionId : Option Str)
    (db dk : Str) (tags : Nat) (dryrun : Bool) : Bool × List S3Action :=
  match env.headObject sb sk versionId with
  | none => (false, [])
  | some m => mupBody env db dk tags m.contentLength dryrun

/-- The body of `copy_with_metadata_preservation` (lines 392-444) once
metadata is at hand: require a timestamp, then in non-dry-run mode
either a multipart copy (above 4 GiB) or a single `copy_object`
followed by `apply_tags` (tagging failures swallowed). -/
def cwmpBody (env : CleanupEnv) (sb sk db dk : Str) (m : ObjMeta) (dryrun : Bool) :
    Bool × List S3Action :=
  if m.hasLastModified = false then (false, [])
  else if dryrun then (true, [])
  else if m.contentLength > MAX_DIRECT_COPY_SIZE then
    multipart_copy_with_metadata env sb sk none db dk (env.tagCount sb sk) dryrun
  else if env.copyObjectOk db dk then
    (true, S3Action.copyObject db dk :: (apply_tags env db dk (env.tagCount sb sk) false).2)
  else (false, [S3Action.copyObject db dk])

/-- `copy_with_metadata_preservation` (lines 383-447): head the source
if no metadata was passed in, then run the body above. -/
def copy_with_metadata_preservation (env : CleanupEnv) (sb sk db dk : Str)
    (sourceMeta : Option ObjMeta) (dryrun : Bool) : Bool × List S3Action :=
  match sourceMeta with
  | some m => cwmpBody env sb sk db dk m dryrun
  | none =>
    match env.headObject sb sk none with
    | none => (false, [])
    | some m => cwmpBody env sb sk db dk m dryrun

/-- The non-current-version copy loop of `copy_file` (lines 496-506);
the first failing `copy_object` raises (caught at function level). -/
def copyVersionsLoop (env : CleanupEnv) (db dk : Str) (curId : Option Str) :
    List VersionInfo → Bool × List S3Action
  | [] => (true, [])
  | v :: rest =>
    if curId = some v.versionId then copyVersionsLoop env db dk curId rest
    else
      if env.copyVersionOk db dk v.versionId then
        let r := copyVersionsLoop env db dk curId rest
        (r.1, S3Action.copyObject db dk :: r.2)
      else (false, [S3Action.copyObject db dk])

/-- The current-version copy step of `copy_file` (lines 481-493): find
the first non-deleted version, head it (falling back to the overall
metadata) and copy it; with no current version the step is skipped. -/
def copyFileCurrent (env : CleanupEnv) (sb sk db dk : Str) (m : ObjMeta) (dryrun : Bool) :
    Bool × List S3Action :=
  match (env.versions sb sk).find? (fun v => !v.isDeleted) with
  | some cv =>
    copy_with_metadata_preservation env sb sk db dk
      (some ((env.headObject sb sk (some cv.versionId)).getD m)) dryrun
  | none => (true, [])

/-- `copy_file` (lines 458-513): copy a single key, either the current
version only or the current version followed by all non-current
versions (the latter loop is skipped in dry-run mode). -/
def copy_file (env : CleanupEnv) (sb sk db dk : Str) (cvo dryrun : Bool) :
    Bool × List S3Action :=
  match env.headObject sb sk none with
  | none => (false, [])
  | some m =>
    if cvo then copy_with_metadata_preservation env sb sk db dk (some m) dryrun
    else if env.versions sb sk = [] then (false, [])
    else if (copyFileCurrent env sb sk db dk m dryrun).1 = false then
      (false, (copyFileCurrent env sb sk db dk m dryrun).2)
    else if dryrun then (true, (copyFileCurrent env sb sk db dk m dryrun).2)
    else
      ((copyVersionsLoop env db dk
          (((env.versions sb sk).find? (fun v => !v.isDeleted)).map (fun v => v.versionId))
          (env.versions sb sk)).1,
       (copyFileCurrent env sb sk db dk m dryrun).2 ++
         (copyVersionsLoop env db dk
           (((env.versions sb sk).find? (fun v => !v.isDeleted)).map (fun v => v.versionId))
           (env.versions sb sk)).2)

/-- The per-version deletion loop of `delete_file` (lines 537-540). -/
def deleteVersionsLoop (env : CleanupEnv) (b k : Str) :
    List VersionInfo → Bool × List S3Action
  | [] => (true, [])
  | v :: rest =>
    if env.deleteOk b k (some v.versionId) then
      let r := deleteVersionsLoop env b k rest
      (r.1, S3Action.deleteObject b k (some v.versionId) :: r.2)
    else (false, [S3Action.deleteObject b k (some v.versionId)])

/-- `delete_file` (lines 515-547): delete the current version only, or
every version; in dry-run mode only logging happens. -/
def delete_file (env : CleanupEnv) (b k : Str) (cvo dryrun : Bool) :
    Bool × List S3Action :=
  if cvo then
    if dryrun then (true, [])
    else
      if env.deleteOk b k none then (true, [S3Action.deleteObject b k none])
      else (false, [S3Action.deleteObject b k none])
  else if env.versions b k = [] then (false, [])
  else if dryrun = false then deleteVersionsLoop env b k (env.versions b k)
  else (true, [])

/-- `is_recursive_pattern` (lines 39-49): a glob with `**` or `/*/`, or
a regex containing `/` together with `.*/` or `.+/`; an empty or absent
pattern, and exact patterns, are never recursive. -/
def is_recursive_pattern (pat : Option Str) (pt : PatternType) : Bool :=
  match pat with
  | none => false
  | some p =>
    if p.isEmpty then false
    else
      match pt with
      | PatternType.glob => decide ("**".toList <:+: p) || decide ("/*/".toList <:+: p)
      | PatternType.regex =>
          decide ("/".toList <:+: p) &&
            (decide (".*/".toList <:+: p) || decide (".+/".toList <:+: p))
      | PatternType.exact => false

/-- The file-selection of `process_files` (lines 617-632): a truthy
non-recursive pattern lists direct files, a recursive pattern lists
recursively, otherwise the default recursive listing with no pattern. -/
def selectMatched (env : CleanupEnv) (sb sp : Str) (pat : Option Str) (pt : PatternType) :
    List FileInfo :=
  if strTruthy pat && !is_recursive_pattern pat pt then env.listDirect sb sp pat pt
  else if strTruthy pat && is_recursive_pattern pat pt then env.listRecursive sb sp pat pt
  else env.listRecursive sb sp none pt

/-- The `use_recursive` flag of `process_files`. -/
def useRecursive (pat : Option Str) (pt : PatternType) : Bool :=
  !(strTruthy pat && !is_recursive_pattern pat pt)

/-- The parent-folder step of `process_copy_or_move` (lines 584-588):
when the destination key has a parent directory, ensure it exists (the
step's success value is ignored by the caller). -/
def pcmFolderTrace (env : CleanupEnv) (db dk : Str) (dryrun : Bool) : List S3Action :=
  if '/' ∈ dk then
    if posixDirname dk ≠ [] then (check_and_create_folder env db (posixDirname dk) dryrun).2
    else []
  else []

/-- `process_copy_or_move` (lines 576-599): compute the destination key,
ensure the parent folder exists (result ignored), copy, and for a move
delete the source only after a successful, non-dry-run copy. -/
def process_copy_or_move (env : CleanupEnv) (file : FileInfo) (sb db sp dp : Str)
    (merge cvo isMove dryrun : Bool) : Bool × List S3Action :=
  if isMove
      && (copy_file env sb file.key db
            (calculate_destination_key file.key sp dp merge) cvo dryrun).1
      && !dryrun then
    ((delete_file env sb file.key cvo false).1,
     pcmFolderTrace env db (calculate_destination_key file.key sp dp merge) dryrun ++
       (copy_file env sb file.key db
         (calculate_destination_key file.key sp dp merge) cvo dryrun).2 ++
       (delete_file env sb file.key cvo false).2)
  else
    ((copy_file env sb file.key db
        (calculate_destination_key file.key sp dp merge) cvo dryrun).1,
     pcmFolderTrace env db (calculate_destination_key file.key sp dp merge) dryrun ++
       (copy_file env sb file.key db
         (calculate_destination_key file.key sp dp merge) cvo dryrun).2)

/-- The per-file execution loop of `process_files` (lines 714-732),
returning `(succeeded, failed, trace)`.  `op` is `delete`, `copy` or
`move` here (`list` returns earlier). -/
def execLoop (env : CleanupEnv) (op : Op) (sb db sp dp : Str)
    (merge cvo dryrun : Bool) : List FileInfo → Nat × Nat × List S3Action
  | [] => (0, 0, [])
  | f :: rest =>
    let u : Bool × List S3Action :=
      if op = Op.delete then delete_file env sb f.key cvo dryrun
      else process_copy_or_move env f sb db sp dp merge cvo (op = Op.move) dryrun
    let r := execLoop env op sb db sp dp merge cvo dryrun rest
    (if u.1 then r.1 + 1 else r.1, if u.1 then r.2.1 else r.2.1 + 1, u.2 ++ r.2.2)

/-- Number of dry-run preview lines (lines 679): all matches for `-1`,
else `min(dryrun_count, len(matched))` (a negative count shows none). -/
def displayCount (dc : Int) (n : Nat) : Nat :=
  if dc = -1 then n else (min dc (Int.ofNat n)).toNat

/-- The destination keys displayed by the dry-run preview (lines 680-689)
for copy/move operations (delete/list lines show only source keys and
are not collected). -/
def dryRunKeys (op : Op) (matched : List FileInfo) (sp dp : Str) (merge : Bool)
    (dc : Int) : List Str :=
  if op = Op.copy ∨ op = Op.move then
    (matched.take (displayCount dc matched.length)).map
      (fun f => calculate_destination_key f.key sp dp merge)
  else []

/-- Combination of the recursive per-folder results (lines 653-673):
overall success is the conjunction; traces and previews concatenate. -/
def combineResults (rs : List ((Bool × Option (List FileInfo)) × List S3Action × List Str)) :
    Bool × List S3Action × List Str :=
  (rs.all (fun r => r.1.1),
   rs.foldr (fun r acc => r.2.1 ++ acc) [],
   rs.foldr (fun r acc => r.2.2 ++ acc) [])

/-- The dry-run preview lines of `process_files` (empty outside dry-run
mode). -/
def previewOf (env : CleanupEnv) (op : Op) (sb sp : Str) (dpO : Option Str)
    (pat : Option Str) (pt : PatternType) (merge dryrun : Bool) (dc : Int) : List Str :=
  if dryrun then dryRunKeys op (selectMatched env sb sp pat pt) sp (dpO.getD []) merge dc
  else []

/-- The destination check of `process_files` (lines 703-708): only
copy/move validate and create the destination folder. -/
def folderStep (env : CleanupEnv) (op : Op) (dbO dpO : Option Str) (dryrun : Bool) :
    Bool × List S3Action :=
  if op = Op.copy ∨ op = Op.move then
    check_and_create_folder env (dbO.getD []) (dpO.getD []) dryrun
  else (true, [])

/-- `process_files` (lines 601-742), with an explicit fuel bound for the
recursive empty-folder replication (exhausted fuel fails with no calls).
Returns `((overall_success, matched_files?), trace, dry_run_preview)`. -/
def process_files : Nat → CleanupEnv → Op → Str → Str → Option Str → Option Str →
    Option Str → PatternType → Bool → Bool → Bool → Int →
    (Bool × Option (List FileInfo)) × List S3Action × List Str
  | 0, _, _, _, _, _, _, _, _, _, _, _, _ => ((false, none), [], [])
  | Nat.succ fuel, env, op, sb, sp, dbO, dpO, pat, pt, cvo, merge, dryrun, dc =>
    if op = Op.list then
      ((true, some (env.listDirect sb sp pat pt)), [], [])
    else if (op = Op.copy ∨ op = Op.move) ∧ (strTruthy dbO = false ∨ strTruthy dpO = false) then
      ((false, none), [], [])
    else if selectMatched env sb sp pat pt = [] then
      if strTruthy pat then ((false, none), [], [])
      else if useRecursive pat pt && !(env.listFolders sb sp).isEmpty
          && (op = Op.copy || op = Op.move) then
        (((combineResults ((env.listFolders sb sp).map (fun f =>
             process_files fuel env op sb f.key dbO dpO pat pt cvo merge dryrun dc))).1,
           some []),
         (combineResults ((env.listFolders sb sp).map (fun f =>
             process_files fuel env op sb f.key dbO dpO pat pt cvo merge dryrun dc))).2.1,
         (combineResults ((env.listFolders sb sp).map (fun f =>
             process_files fuel env op sb f.key dbO dpO pat pt cvo merge dryrun dc))).2.2)
      else ((true, some []), [], [])
    else if dryrun = false ∧ (op = Op.delete ∨ op = Op.move) ∧ strTruthy pat
        ∧ env.confirm = false then
      ((false, none), [], previewOf env op sb sp dpO pat pt merge dryrun dc)
    else if (op = Op.copy ∨ op = Op.move) ∧ (folderStep env op dbO dpO dryrun).1 = false then
      ((false, none), (folderStep env op dbO dpO dryrun).2,
        previewOf env op sb sp dpO pat pt merge dryrun dc)
    else if dryrun then
      ((true, some (selectMatched env sb sp pat pt)), (folderStep env op dbO dpO dryrun).2,
        previewOf env op sb sp dpO pat pt merge dryrun dc)
    else
      (((execLoop env op sb (dbO.getD []) sp (dpO.getD []) merge cvo dryrun
           (selectMatched env sb sp pat pt)).2.1 == 0,
        some (selectMatched env sb sp pat pt)),
       (folderStep env op dbO dpO dryrun).2 ++
         (execLoop env op sb (dbO.getD []) sp (dpO.getD []) merge cvo dryrun
           (selectMatched env sb sp pat pt)).2.2,
       previewOf env op sb sp dpO pat pt merge dryrun dc)

/-- The exit code of `main` (lines 784-825): 1 when `process_files`
reports failure, 0 otherwise. -/
def exitCode (success : Bool) : Nat := if success then 0 else 1

/-! ## C7 — size-equality short-circuit -/

/-- C7: when the destination already holds an object whose stored size
equals the source file's size, `upload_to_s3` succeeds with no mutating
call at all — no byte transfer and no multipart session. -/
theorem claim_C7_size_skip (e : FtpEnv) (ftpPath b k : Str) (uc : Option Nat) (n : Nat)
    (hftp : e.ftpSize ftpPath = some n) (hhead : e.headSize b k = some n) :
    upload_to_s3 e ftpPath b k uc = (true, []) := by
  unfold upload_to_s3
  rw [hftp, hhead]
  simp

/-- All-success sample FTP environment (fields in declaration order:
ftpSize, headSize, openOk, readOk, singleUploadOk, uploadId, createOk,
uploadPartOk, completeOk, abortOk, isSftp). -/
def sampleFtpEnv : FtpEnv :=
  ⟨fun _ => some 42, fun _ _ => some 42, true, fun _ => true, true,
   "uid-1".toList, true, fun _ => true, true, true, true⟩

/-- C7 witness: a 42-byte file already present at the destination is
skipped. -/
theorem claim_C7_size_skip_witness :
    sampleFtpEnv.ftpSize "f".toList = some 42
    ∧ sampleFtpEnv.headSize "b".toList "k".toList = some 42
    ∧ upload_to_s3 sampleFtpEnv "f".toList "b".toList "k".toList none = (true, []) :=
  ⟨rfl, rfl, claim_C7_size_skip sampleFtpEnv "f".toList "b".toList "k".toList none 42 rfl rfl⟩

/-! ## C9 — move deletes the source only after a successful copy -/

theorem apply_tags_no_delete (env : CleanupEnv) (b k : Str) (tags : Nat) (d : Bool) :
    ∀ a ∈ (apply_tags env b k tags d).2, a.isDelete = false := by
  unfold apply_tags
  split
  · split
    · split <;> intro a ha <;> simp at ha <;> subst ha <;> rfl
    · intro a ha; simp at ha
  · intro a ha; simp at ha

theorem copyPartsLoop_no_delete (env : CleanupEnv) (db dk uid : Str)
    (rs : List (Nat × Nat × Nat)) :
    ∀ a ∈ (copyPartsLoop env db dk uid rs).2, a.isDelete = false := by
  induction rs with
  | nil => intro a ha; simp [copyPartsLoop] at ha
  | cons r rest ih =>
    rcases r with ⟨pn, fb, lb⟩
    unfold copyPartsLoop
    split
    · intro a ha
      rcases List.mem_cons.mp ha with h | h
      · subst h; rfl
      · exact ih a h
    · intro a ha
      simp at ha; subst ha; rfl

theorem mupBody_no_delete (env : CleanupEnv) (db dk : Str) (tags size : Nat) (d : Bool) :
    ∀ a ∈ (mupBody env db dk tags size d).2, a.isDelete = false := by
  unfold mupBody
  intro a ha
  split at ha
  · simp at ha
  · split at ha
    · simp at ha; subst ha; rfl
    · split at ha
      · split at ha
        · simp only [List.mem_cons, List.mem_append] at ha
          rcases ha with h | h | h | h
          · subst h; rfl
          · exact copyPartsLoop_no_delete env db dk _ _ a h
          · subst h; rfl
          · exact apply_tags_no_delete env db dk tags false a h
        · rw [mupAbortReturn_eq] at ha
          simp only [List.mem_cons, List.mem_append, List.mem_singleton,
            List.not_mem_nil, or_false] at ha
          rcases ha with (h | h | h) | h
          · subst h; rfl
          · exact copyPartsLoop_no_delete env db dk _ _ a h
          · subst h; rfl
          · subst h; rfl
      · rw [mupAbortReturn_eq] at ha
        simp only [List.mem_cons, List.mem_append, List.mem_singleton,
          List.not_mem_nil, or_false] at ha
        rcases ha with (h | h) | h
        · subst h; rfl
        · exact copyPartsLoop_no_delete env db dk _ _ a h
        · subst h; rfl

theorem multipart_copy_no_delete (env : CleanupEnv) (sb sk : Str) (vid : Option Str)
    (db dk : Str) (tags : Nat) (d : Bool) :
    ∀ a ∈ (multipart_copy_with_metadata env sb sk vid db dk tags d).2, a.isDelete = false := by
  unfold multipart_copy_with_metadata
  intro a ha
  split at ha
  · simp at ha
  · exact mupBody_no_delete env db dk tags _ d a ha

theorem cwmpBody_no_delete (env : CleanupEnv) (sb sk db dk : Str) (m : ObjMeta) (d : Bool) :
    ∀ a ∈ (cwmpBody env sb sk db dk m d).2, a.isDelete = false := by
  unfold cwmpBody
  intro a ha
  split at ha
  · simp at ha
  · split at ha
    · simp at ha
    · split at ha
      · exact multipart_copy_no_delete env sb sk none db dk _ d a ha
      · split at ha
        · rcases List.mem_cons.mp ha with h | h
          · subst h; rfl
          · exact apply_tags_no_delete env db dk _ false a h
        · simp at ha; subst ha; rfl

theorem copy_with_metadata_no_delete (env : CleanupEnv) (sb sk db dk : Str)
    (sm : Option ObjMeta) (d : Bool) :
    ∀ a ∈ (copy_with_metadata_preservation env sb sk db dk sm d).2, a.isDelete = false := by
  unfold copy_with_metadata_preservation
  intro a ha
  split at ha
  · exact cwmpBody_no_delete env sb sk db dk _ d a ha
  · split at ha
    · simp at ha
    · exact cwmpBody_no_delete env sb sk db dk _ d a ha

theorem copyVersionsLoop_no_delete (env : CleanupEnv) (db dk : Str) (cur : Option Str)
    (vs : List VersionInfo) :
    ∀ a ∈ (copyVersionsLoop env db dk cur vs).2, a.isDelete = false := by
  induction vs with
  | nil => intro a ha; simp [copyVersionsLoop] at ha
  | cons v rest ih =>
    unfold copyVersionsLoop
    split
    · exact ih
    · split
      · intro a ha
        rcases List.mem_cons.mp ha with h | h
        · subst h; rfl
        · exact ih a h
      · intro a ha; simp at ha; subst ha; rfl

theorem copyFileCurrent_no_delete (env : CleanupEnv) (sb sk db dk : Str) (m : ObjMeta)
    (d : Bool) : ∀ a ∈ (copyFileCurrent env sb sk db dk m d).2, a.isDelete = false := by
  unfold copyFileCurrent
  intro a ha
  split at ha
  · exact copy_with_metadata_no_delete env sb sk db dk _ d a ha
  · simp at ha

theorem copy_file_no_delete (env : CleanupEnv) (sb sk db dk : Str) (cvo d : Bool) :
    ∀ a ∈ (copy_file env sb sk db dk cvo d).2, a.isDelete = false := by
  unfold copy_file
  intro a ha
  split at ha
  · simp at ha
  · split at ha
    · exact copy_with_metadata_no_delete env sb sk db dk _ d a ha
    · split at ha
      · simp at ha
      · split at ha
        · exact copyFileCurrent_no_delete env sb sk db dk _ d a ha
        · split at ha
          · exact copyFileCurrent_no_delete env sb sk db dk _ d a ha
          · simp only [List.mem_append] at ha
            rcases ha with h | h
            · exact copyFileCurrent_no_delete env sb sk db dk _ d a h
            · exact copyVersionsLoop_no_delete env db dk _ _ a h

theorem check_and_create_folder_no_delete (env : CleanupEnv) (b p : Str) (d : Bool) :
    ∀ a ∈ (check_and_create_folder env b p d).2, a.isDelete = false := by
  unfold check_and_create_folder
  intro a ha
  split at ha
  · simp at ha
  · split at ha
    · split at ha
      · split at ha <;> simp at ha <;> subst ha <;> rfl
      · simp at ha
    · simp at ha

theorem pcmFolderTrace_no_delete (env : CleanupEnv) (db dk : Str) (d : Bool) :
    ∀ a ∈ pcmFolderTrace env db dk d, a.isDelete = false := by
  unfold pcmFolderTrace
  intro a ha
  split at ha
  · split at ha
    · exact check_and_create_folder_no_delete env db _ d a ha
    · simp at ha
  · simp at ha

/-- C9: in a move, the source object is deleted only after the copy to
the destination key has returned success; if the copy fails, no delete
call is made and the unit reports failure; and in dry-run mode no delete
call is ever made. -/
theorem claim_C9_move_delete_after_copy (env : CleanupEnv) (file : FileInfo)
    (sb db sp dp : Str) (merge cvo : Bool) :
    (∃ pre post,
        (process_copy_or_move env file sb db sp dp merge cvo true false).2 = pre ++ post
        ∧ (∀ a ∈ pre, a.isDelete = false)
        ∧ (post ≠ [] →
            (copy_file env sb file.key db
              (calculate_destination_key file.key sp dp merge) cvo false).1 = true))
    ∧ ((copy_file env sb file.key db
          (calculate_destination_key file.key sp dp merge) cvo false).1 = false →
        (process_copy_or_move env file sb db sp dp merge cvo true false).1 = false
        ∧ ∀ a ∈ (process_copy_or_move env file sb db sp dp merge cvo true false).2,
            a.isDelete = false)
    ∧ (∀ a ∈ (process_copy_or_move env file sb db sp dp merge cvo true true).2,
        a.isDelete = false) := by
  refine ⟨?_, ?_, ?_⟩
  · unfold process_copy_or_move
    by_cases hc : (copy_file env sb file.key db
        (calculate_destination_key file.key sp dp merge) cvo false).1 = true
    · rw [if_pos (by rw [hc]; rfl)]
      refine ⟨pcmFolderTrace env db (calculate_destination_key file.key sp dp merge) false ++
          (copy_file env sb file.key db
            (calculate_destination_key file.key sp dp merge) cvo false).2,
        (delete_file env sb file.key cvo false).2, rfl, ?_, fun _ => hc⟩
      intro a ha
      rcases List.mem_append.mp ha with h | h
      · exact pcmFolderTrace_no_delete env db _ false a h
      · exact copy_file_no_delete env sb file.key db _ cvo false a h
    · have hc' : (copy_file env sb file.key db
          (calculate_destination_key file.key sp dp merge) cvo false).1 = false := by
        cases h : (copy_file env sb file.key db
            (calculate_destination_key file.key sp dp merge) cvo false).1
        · rfl
        · exact absurd h hc
      rw [if_neg (by rw [hc']; simp)]
      refine ⟨pcmFolderTrace env db (calculate_destination_key file.key sp dp merge) false ++
          (copy_file env sb file.key db
            (calculate_destination_key file.key sp dp merge) cvo false).2,
        [], (List.append_nil _).symm, ?_, fun hne => absurd rfl hne⟩
      intro a ha
      rcases List.mem_append.mp ha with h | h
      · exact pcmFolderTrace_no_delete env db _ false a h
      · exact copy_file_no_delete env sb file.key db _ cvo false a h
  · intro hcf
    unfold process_copy_or_move
    rw [if_neg (by rw [hcf]; simp)]
    refine ⟨hcf, ?_⟩
    intro a ha
    rcases List.mem_append.mp ha with h | h
    · exact pcmFolderTrace_no_delete env db _ false a h
    · exact copy_file_no_delete env sb file.key db _ cvo false a h
  · intro a ha
    unfold process_copy_or_move at ha
    rw [if_neg (by simp)] at ha
    rcases List.mem_append.mp ha with h | h
    · exact pcmFolderTrace_no_delete env db _ true a h
    · exact copy_file_no_delete env sb file.key db _ cvo true a h

/-- All-success sample cleanup environment (fields in declaration
order: bucketOk, prefixHasContents, listDirect, listRecursive,
listFolders, headObject, tagCount, versions, putObjectOk, copyObjectOk,
copyVersionOk, putTaggingOk, deleteOk, createMupId, createMupOk,
uploadPartCopyOk, completeMupOk, abortMupOk, confirm). -/
def sampleCleanupEnv : CleanupEnv :=
  ⟨fun _ => true,
   fun _ _ => true,
   fun _ _ _ _ => [⟨"src/a.txt".toList, 4⟩],
   fun _ _ _ _ => [⟨"src/a.txt".toList, 4⟩],
   fun _ _ => [],
   fun _ _ _ => some ⟨true, 4⟩,
   fun _ _ => 0,
   fun _ _ => [⟨"v1".toList, false⟩],
   fun _ _ => true,
   fun _ _ => true,
   fun _ _ _ => true,
   fun _ _ => true,
   fun _ _ _ => true,
   fun _ _ => "uid-2".toList,
   fun _ _ => true,
   fun _ _ _ => true,
   fun _ _ => true,
   fun _ _ => true,
   true⟩

/-- C9 witness: when `head_object` fails the copy fails, the move unit
reports failure and no delete call appears in its trace. -/
theorem claim_C9_move_delete_after_copy_witness :
    (copy_file { sampleCleanupEnv with headObject := fun _ _ _ => none }
        "sb".toList "src/a.txt".toList "db".toList
        (calculate_destination_key "src/a.txt".toList "src".toList "dst".toList false)
        false false).1 = false
    ∧ ((process_copy_or_move { sampleCleanupEnv with headObject := fun _ _ _ => none }
          ⟨"src/a.txt".toList, 4⟩ "sb".toList "db".toList "src".toList "dst".toList
          false false true false).1 = false
       ∧ ∀ a ∈ (process_copy_or_move { sampleCleanupEnv with headObject := fun _ _ _ => none }
            ⟨"src/a.txt".toList, 4⟩ "sb".toList "db".toList "src".toList "dst".toList
            false false true false).2, a.isDelete = false) :=
  ⟨by decide,
   (claim_C9_move_delete_after_copy { sampleCleanupEnv with headObject := fun _ _ _ => none }
      ⟨"src/a.txt".toList, 4⟩ "sb".toList "db".toList "src".toList "dst".toList
      false false).2.1 (by decide)⟩

/-! ## C8 — confirmation gate for destructive operations -/

/-- C8: a delete or move with a truthy pattern and dry-run disabled
stops at the confirmation prompt; a declined confirmation yields overall
failure (exit code 1) with no mutating call performed. -/
theorem claim_C8_confirmation_gate (fuel : Nat) (env : CleanupEnv) (op : Op)
    (sb sp : Str) (dbO dpO pat : Option Str) (pt : PatternType)
    (cvo merge : Bool) (dc : Int)
    (hop : op = Op.delete ∨ op = Op.move) (hpat : strTruthy pat = true)
    (hconf : env.confirm = false) :
    (process_files fuel env op sb sp dbO dpO pat pt cvo merge false dc).1.1 = false
    ∧ (process_files fuel env op sb sp dbO dpO pat pt cvo merge false dc).2.1 = []
    ∧ exitCode (process_files fuel env op sb sp dbO dpO pat pt cvo merge false dc).1.1
        = 1 := by
  cases fuel with
  | zero => exact ⟨rfl, rfl, rfl⟩
  | succ fuel =>
    have hnl : ¬ op = Op.list := by
      rcases hop with h | h <;> subst h <;> simp
    unfold process_files
    rw [if_neg hnl]
    by_cases hval : (op = Op.copy ∨ op = Op.move) ∧
        (strTruthy dbO = false ∨ strTruthy dpO = false)
    · rw [if_pos hval]
      exact ⟨rfl, rfl, rfl⟩
    · rw [if_neg hval]
      by_cases hm : selectMatched env sb sp pat pt = []
      · rw [if_pos hm, if_pos hpat]
        exact ⟨rfl, rfl, rfl⟩
      · rw [if_neg hm, if_pos ⟨rfl, hop, hpat, hconf⟩]
        exact ⟨rfl, rfl, rfl⟩

/-- C8 witness: a declined delete with pattern `*.txt` fails with exit
code 1 and an empty trace. -/
theorem claim_C8_confirmation_gate_witness :
    strTruthy (some "*.txt".toList) = true
    ∧ ({ sampleCleanupEnv with confirm := false } : CleanupEnv).confirm = false
    ∧ ((process_files 1 { sampleCleanupEnv with confirm := false } Op.delete
          "sb".toList "src".toList none none (some "*.txt".toList) PatternType.glob
          false false false 100).1.1 = false
       ∧ (process_files 1 { sampleCleanupEnv with confirm := false } Op.delete
            "sb".toList "src".toList none none (some "*.txt".toList) PatternType.glob
            false false false 100).2.1 = []
       ∧ exitCode (process_files 1 { sampleCleanupEnv with confirm := false } Op.delete
            "sb".toList "src".toList none none (some "*.txt".toList) PatternType.glob
            false false false 100).1.1 = 1) :=
  ⟨by decide, by decide,
   claim_C8_confirmation_gate 1 { sampleCleanupEnv with confirm := false } Op.delete
     "sb".toList "src".toList none none (some "*.txt".toList) PatternType.glob
     false false 100 (Or.inl rfl) (by decide) (by decide)⟩

/-! ## C2 — dry run performs no mutating call -/

theorem check_and_create_folder_dryrun_trace (env : CleanupEnv) (b p : Str) :
    (check_and_create_folder env b p true).2 = [] := by
  unfold check_and_create_folder
  split
  · rfl
  · split
    · rw [if_neg (by simp)]
    · rfl

theorem folderStep_dryrun_trace (env : CleanupEnv) (op : Op) (dbO dpO : Option Str) :
    (folderStep env op dbO dpO true).2 = [] := by
  unfold folderStep
  split
  · exact check_and_create_folder_dryrun_trace env _ _
  · rfl

theorem combineResults_trace_nil
    (rs : List ((Bool × Option (List FileInfo)) × List S3Action × List Str))
    (h : ∀ r ∈ rs, r.2.1 = []) : (combineResults rs).2.1 = [] := by
  unfold combineResults
  induction rs with
  | nil => rfl
  | cons r rest ih =>
    show r.2.1 ++ rest.foldr (fun r acc => r.2.1 ++ acc) [] = []
    have h2 := ih (fun x hx => h x (List.mem_cons_of_mem _ hx))
    rw [h r (List.mem_cons_self r rest)]
    exact h2

theorem process_files_dryrun_trace :
    ∀ (fuel : Nat) (env : CleanupEnv) (op : Op) (sb sp : Str) (dbO dpO pat : Option Str)
      (pt : PatternType) (cvo merge : Bool) (dc : Int),
      (process_files fuel env op sb sp dbO dpO pat pt cvo merge true dc).2.1 = [] := by
  intro fuel
  induction fuel with
  | zero => intro env op sb sp dbO dpO pat pt cvo merge dc; rfl
  | succ fuel ih =>
    intro env op sb sp dbO dpO pat pt cvo merge dc
    unfold process_files
    by_cases h1 : op = Op.list
    · rw [if_pos h1]
    · rw [if_neg h1]
      by_cases h2 : (op = Op.copy ∨ op = Op.move) ∧
          (strTruthy dbO = false ∨ strTruthy dpO = false)
      · rw [if_pos h2]
      · rw [if_neg h2]
        by_cases h3 : selectMatched env sb sp pat pt = []
        · rw [if_pos h3]
          by_cases h4 : strTruthy pat = true
          · rw [if_pos h4]
          · rw [if_neg h4]
            by_cases h5 : (useRecursive pat pt && !(env.listFolders sb sp).isEmpty
                && (op = Op.copy || op = Op.move)) = true
            · rw [if_pos h5]
              apply combineResults_trace_nil
              intro r hr
              rcases List.mem_map.mp hr with ⟨f, _, heq⟩
              rw [← heq]
              exact ih env op sb f.key dbO dpO pat pt cvo merge dc
            · rw [if_neg h5]
        · rw [if_neg h3, if_neg (by simp)]
          by_cases h7 : (op = Op.copy ∨ op = Op.move) ∧
              (folderStep env op dbO dpO true).1 = false
          · rw [if_pos h7]
            exact folderStep_dryrun_trace env op dbO dpO
          · rw [if_neg h7, if_pos rfl]
            exact folderStep_dryrun_trace env op dbO dpO

theorem process_files_dryrun_preview (fuel : Nat) (env : CleanupEnv) (op : Op)
    (sb sp : Str) (dbO dpO pat : Option Str) (pt : PatternType)
    (cvo merge : Bool) (dc : Int) (dpv : Str)
    (hop : op = Op.copy ∨ op = Op.move) (hdp : dpO = some dpv)
    (hdb : strTruthy dbO = true) (hdpt : strTruthy dpO = true)
    (hm : selectMatched env sb sp pat pt ≠ []) (hf : 0 < fuel) :
    (process_files fuel env op sb sp dbO dpO pat pt cvo merge true dc).2.2
      = ((selectMatched env sb sp pat pt).map
          (fun f => calculate_destination_key f.key sp dpv merge)).take
          (displayCount dc (selectMatched env sb sp pat pt).length) := by
  cases fuel with
  | zero => exact absurd hf (by simp)
  | succ fuel =>
    have hnl : ¬ op = Op.list := by
      rcases hop with h | h <;> subst h <;> simp
    have hval : ¬ ((op = Op.copy ∨ op = Op.move) ∧
        (strTruthy dbO = false ∨ strTruthy dpO = false)) := by
      intro h
      rcases h.2 with h2 | h2
      · rw [hdb] at h2; cases h2
      · rw [hdpt] at h2; cases h2
    have hprev : previewOf env op sb sp dpO pat pt merge true dc
        = ((selectMatched env sb sp pat pt).map
            (fun f => calculate_destination_key f.key sp dpv merge)).take
            (displayCount dc (selectMatched env sb sp pat pt).length) := by
      unfold previewOf dryRunKeys
      rw [if_pos rfl, if_pos hop, hdp]
      exact List.map_take _ _ _
    unfold process_files
    rw [if_neg hnl, if_neg hval, if_neg hm, if_neg (by simp)]
    by_cases h7 : (op = Op.copy ∨ op = Op.move) ∧
        (folderStep env op dbO dpO true).1 = false
    · rw [if_pos h7]
      exact hprev
    · rw [if_neg h7, if_pos rfl]
      exact hprev

/-- C2: with the dry-run flag set, no mutating S3 call is performed by
any operation, regardless of how many files match; and for copy/move the
previewed destination keys are exactly the keys a real run would
produce (`calculate_destination_key` on each matched file), truncated to
the requested preview count. -/
theorem claim_C2_dry_run (fuel : Nat) (env : CleanupEnv) (op : Op) (sb sp : Str)
    (dbO dpO pat : Option Str) (pt : PatternType) (cvo merge : Bool) (dc : Int) :
    (process_files fuel env op sb sp dbO dpO pat pt cvo merge true dc).2.1 = []
    ∧ (∀ dpv, (op = Op.copy ∨ op = Op.move) → dpO = some dpv →
        strTruthy dbO = true → strTruthy dpO = true →
        selectMatched env sb sp pat pt ≠ [] → 0 < fuel →
        (process_files fuel env op sb sp dbO dpO pat pt cvo merge true dc).2.2
          = ((selectMatched env sb sp pat pt).map
              (fun f => calculate_destination_key f.key sp dpv merge)).take
              (displayCount dc (selectMatched env sb sp pat pt).length)) :=
  ⟨process_files_dryrun_trace fuel env op sb sp dbO dpO pat pt cvo merge dc,
   fun dpv hop hdp hdb hdpt hm hf =>
     process_files_dryrun_preview fuel env op sb sp dbO dpO pat pt cvo merge dc dpv
       hop hdp hdb hdpt hm hf⟩

/-- C2 witness: a dry-run copy with one matched file performs no call
and previews the destination key computed by
`calculate_destination_key`. -/
theorem claim_C2_dry_run_witness :
    (process_files 1 sampleCleanupEnv Op.copy "sb".toList "src".toList
        (some "db".toList) (some "dst".toList) none PatternType.glob
        false false true 100).2.1 = []
    ∧ (process_files 1 sampleCleanupEnv Op.copy "sb".toList "src".toList
        (some "db".toList) (some "dst".toList) none PatternType.glob
        false false true 100).2.2
      = ((selectMatched sampleCleanupEnv "sb".toList "src".toList none
          PatternType.glob).map
          (fun f => calculate_destination_key f.key "src".toList "dst".toList false)).take
          (displayCount 100 (selectMatched sampleCleanupEnv "sb".toList "src".toList none
            PatternType.glob).length) :=
  ⟨(claim_C2_dry_run 1 sampleCleanupEnv Op.copy "sb".toList "src".toList
      (some "db".toList) (some "dst".toList) none PatternType.glob false false 100).1,
   (claim_C2_dry_run 1 sampleCleanupEnv Op.copy "sb".toList "src".toList
      (some "db".toList) (some "dst".toList) none PatternType.glob false false 100).2
     "dst".toList (Or.inl rfl) rfl (by decide) (by decide) (by decide) (by decide)⟩

/-! ## C3 — abort on any failure after the multipart session is created -/

theorem sftp_abort_on_failure (e : FtpEnv) (b k : Str) (size chunk : Nat)
    (hcr : e.createOk = true)
    (hf : (upload_sftp_to_s3 e b k size chunk).1 = false)
    (hm : S3Action.createMultipart b k e.uploadId
        ∈ (upload_sftp_to_s3 e b k size chunk).2) :
    S3Action.abortMultipart b k e.uploadId ∈ (upload_sftp_to_s3 e b k size chunk).2 := by
  unfold upload_sftp_to_s3 at hf hm ⊢
  by_cases ho : e.openOk = false
  · rw [if_pos ho] at hm; simp at hm
  · rw [if_neg ho] at hf hm ⊢
    by_cases hsz : size ≤ chunk
    · rw [if_pos hsz] at hm
      by_cases hr : e.readOk 0 = false
      · rw [if_pos hr] at hm; simp at hm
      · rw [if_neg hr] at hm
        by_cases hs : e.singleUploadOk = true
        · rw [if_pos hs] at hm; simp at hm
        · rw [if_neg hs] at hm; simp at hm
    · rw [if_neg hsz] at hf hm ⊢
      rw [if_neg (by rw [hcr]; simp)] at hf hm ⊢
      by_cases hl : (sftpPartsLoop e b k (List.range (ceilDiv size chunk))).1 = true
      · rw [if_pos hl] at hf hm ⊢
        by_cases hc2 : e.completeOk = true
        · rw [if_pos hc2] at hf; cases hf
        · rw [if_neg hc2] at hf hm ⊢
          rw [ftpAbortReturn_eq] at hf hm ⊢
          simp
      · rw [if_neg hl] at hf hm ⊢
        rw [ftpAbortReturn_eq] at hf hm ⊢
        simp

theorem sftpPartsLoop_ignores_abort (e : FtpEnv) (bv : Bool) (b k : Str) (l : List Nat) :
    sftpPartsLoop { e with abortOk := bv } b k l = sftpPartsLoop e b k l := by
  induction l with
  | nil => rfl
  | cons i rest ih =>
    unfold sftpPartsLoop
    rw [ih]

theorem sftp_result_ignores_abort (e : FtpEnv) (b k : Str) (size chunk : Nat) (bv : Bool) :
    (upload_sftp_to_s3 { e with abortOk := bv } b k size chunk).1
      = (upload_sftp_to_s3 e b k size chunk).1 := by
  unfold upload_sftp_to_s3
  simp only [ftpAbortReturn_eq, sftpPartsLoop_ignores_abort]

theorem mupBody_abort_on_failure (env : CleanupEnv) (db dk : Str) (tags size : Nat)
    (hcr : env.createMupOk db dk = true)
    (hf : (mupBody env db dk tags size false).1 = false) :
    S3Action.abortMultipart db dk (env.createMupId db dk)
      ∈ (mupBody env db dk tags size false).2 := by
  unfold mupBody at hf ⊢
  rw [if_neg (by simp)] at hf ⊢
  rw [if_neg (by rw [hcr]; simp)] at hf ⊢
  by_cases hl : (copyPartsLoop env db dk (env.createMupId db dk)
      (copyPartRanges size (mupPartSize size))).1 = true
  · rw [if_pos hl] at hf ⊢
    by_cases hc2 : env.completeMupOk db dk = true
    · rw [if_pos hc2] at hf; cases hf
    · rw [if_neg hc2, mupAbortReturn_eq]
      simp
  · rw [if_neg hl, mupAbortReturn_eq]
    simp

theorem mup_abort_on_failure (env : CleanupEnv) (sb sk : Str) (vid : Option Str)
    (db dk : Str) (tags : Nat)
    (hcr : env.createMupOk db dk = true)
    (hf : (multipart_copy_with_metadata env sb sk vid db dk tags false).1 = false)
    (hm : S3Action.createMultipart db dk (env.createMupId db dk)
        ∈ (multipart_copy_with_metadata env sb sk vid db dk tags false).2) :
    S3Action.abortMultipart db dk (env.createMupId db dk)
      ∈ (multipart_copy_with_metadata env sb sk vid db dk tags false).2 := by
  unfold multipart_copy_with_metadata at hf hm ⊢
  revert hf hm
  cases hh : env.headObject sb sk vid with
  | none =>
    intro hf hm
    exact absurd hm (List.not_mem_nil _)
  | some m =>
    intro hf hm
    exact mupBody_abort_on_failure env db dk tags m.contentLength hcr hf

theorem copyPartsLoop_ignores_abort (env : CleanupEnv) (g : Str → Str → Bool)
    (db dk uid : Str) (rs : List (Nat × Nat × Nat)) :
    copyPartsLoop { env with abortMupOk := g } db dk uid rs
      = copyPartsLoop env db dk uid rs := by
  induction rs with
  | nil => rfl
  | cons r rest ih =>
    rcases r with ⟨pn, fb, lb⟩
    unfold copyPartsLoop
    rw [ih]

theorem apply_tags_ignores_abort (env : CleanupEnv) (g : Str → Str → Bool)
    (b k : Str) (t : Nat) (d : Bool) :
    apply_tags { env with abortMupOk := g } b k t d = apply_tags env b k t d := rfl

theorem mupBody_result_ignores_abort (env : CleanupEnv) (db dk : Str) (tags size : Nat)
    (d : Bool) (g : Str → Str → Bool) :
    (mupBody { env with abortMupOk := g } db dk tags size d).1
      = (mupBody env db dk tags size d).1 := by
  unfold mupBody
  simp only [mupAbortReturn_eq, copyPartsLoop_ignores_abort, apply_tags_ignores_abort]

theorem mup_result_ignores_abort (env : CleanupEnv) (sb sk : Str) (vid : Option Str)
    (db dk : Str) (tags : Nat) (d : Bool) (g : Str → Str → Bool) :
    (multipart_copy_with_metadata { env with abortMupOk := g } sb sk vid db dk tags d).1
      = (multipart_copy_with_metadata env sb sk vid db dk tags d).1 := by
  unfold multipart_copy_with_metadata
  show (match env.headObject sb sk vid with
        | none => (false, [])
        | some m => mupBody { env with abortMupOk := g } db dk tags m.contentLength d).1 = _
  cases hh : env.headObject sb sk vid with
  | none => rfl
  | some m => exact mupBody_result_ignores_abort env db dk tags m.contentLength d g

/-- C3: in both multipart transfers (the SFTP upload and the store-side
multipart copy), any failure after the multipart session was created
leads to `abort` being invoked on that session's upload id before the
function returns its failure result, and the result is independent of
whether the abort call itself succeeds (an abort failure is logged and
does not replace the original failure). -/
theorem claim_C3_abort_on_failure :
    (∀ (e : FtpEnv) (b k : Str) (size chunk : Nat),
        e.createOk = true →
        (upload_sftp_to_s3 e b k size chunk).1 = false →
        S3Action.createMultipart b k e.uploadId ∈ (upload_sftp_to_s3 e b k size chunk).2 →
        S3Action.abortMultipart b k e.uploadId ∈ (upload_sftp_to_s3 e b k size chunk).2)
    ∧ (∀ (e : FtpEnv) (b k : Str) (size chunk : Nat) (bv : Bool),
        (upload_sftp_to_s3 { e with abortOk := bv } b k size chunk).1
          = (upload_sftp_to_s3 e b k size chunk).1)
    ∧ (∀ (env : CleanupEnv) (sb sk : Str) (vid : Option Str) (db dk : Str) (tags : Nat),
        env.createMupOk db dk = true →
        (multipart_copy_with_metadata env sb sk vid db dk tags false).1 = false →
        S3Action.createMultipart db dk (env.createMupId db dk)
          ∈ (multipart_copy_with_metadata env sb sk vid db dk tags false).2 →
        S3Action.abortMultipart db dk (env.createMupId db dk)
          ∈ (multipart_copy_with_metadata env sb sk vid db dk tags false).2)
    ∧ (∀ (env : CleanupEnv) (sb sk : Str) (vid : Option Str) (db dk : Str) (tags : Nat)
        (d : Bool) (g : Str → Str → Bool),
        (multipart_copy_with_metadata { env with abortMupOk := g } sb sk vid db dk tags d).1
          = (multipart_copy_with_metadata env sb sk vid db dk tags d).1) :=
  ⟨sftp_abort_on_failure, sftp_result_ignores_abort,
   mup_abort_on_failure, mup_result_ignores_abort⟩

/-- FTP environment in which the second `upload_part` call fails. -/
def ftpFailEnv : FtpEnv := { sampleFtpEnv with uploadPartOk := fun i => decide (i = 0) }

/-- Cleanup environment in which every `upload_part_copy` call fails. -/
def mupFailEnv : CleanupEnv :=
  { sampleCleanupEnv with uploadPartCopyOk := fun _ _ _ => false }

/-- C3 witness: a failing part 2 of 3 (upload) and a failing part copy
(store-side copy) both abort their session and report failure. -/
theorem claim_C3_abort_on_failure_witness :
    (upload_sftp_to_s3 ftpFailEnv "b".toList "k".toList 25 10).1 = false
    ∧ S3Action.abortMultipart "b".toList "k".toList ftpFailEnv.uploadId
        ∈ (upload_sftp_to_s3 ftpFailEnv "b".toList "k".toList 25 10).2
    ∧ (multipart_copy_with_metadata mupFailEnv "sb".toList "sk".toList none
        "db".toList "dk".toList 0 false).1 = false
    ∧ S3Action.abortMultipart "db".toList "dk".toList
        (mupFailEnv.createMupId "db".toList "dk".toList)
        ∈ (multipart_copy_with_metadata mupFailEnv "sb".toList "sk".toList none
            "db".toList "dk".toList 0 false).2 :=
  ⟨by decide,
   claim_C3_abort_on_failure.1 ftpFailEnv "b".toList "k".toList 25 10 rfl
     (by decide) (by decide),
   by decide,
   claim_C3_abort_on_failure.2.2.1 mupFailEnv "sb".toList "sk".toList none
     "db".toList "dk".toList 0 rfl (by decide) (by decide)⟩
